import Mathlib

/-
Verification development for the napari-imaris-loader plugin.

The repository has two source files:
  * napari_imaris_loader/reader.py           (ims_reader, napari_get_reader)
  * napari_imaris_loader/resolution_change_widget.py   (resolution_change)

The external imaris file-reader library and the chunked-array library are
treated as oracles: an `ImsFile` value records everything the plugin reads
from an opened file (level count, channel count, timepoint count, dtype,
per-level array shapes, voxel resolution, and the outcome of sampling the
lowest resolution level for contrast limits).  Arrays are modelled by their
observable bookkeeping: source path, locked resolution level, and shape.
-/

namespace NapariIms

/-- Pixel data type of the imaris file, as far as `ims_reader` distinguishes
it: `numpy.uint16`, `numpy.uint8`, or anything else. -/
inductive DType
  | uint16
  | uint8
  | other
deriving DecidableEq, Repr

/-- Model of one lazily evaluated chunked array built for one resolution
level (`ims(path, ResolutionLevelLock=rr, ...)` wrapped by `da.from_array`).
Only the bookkeeping the plugin manipulates is kept: the source path, the
locked resolution level, and the array shape. -/
structure DaskArray where
  path : String
  level : Nat
  shape : List Nat
deriving DecidableEq, Repr

/-- Number of array dimensions (`.ndim`). -/
def DaskArray.ndim (a : DaskArray) : Nat := a.shape.length

/-- Effect of `data[idx][np.newaxis, ...]` (reader.py line 100): a singleton
dimension is prepended to the shape. -/
def DaskArray.expandDims (a : DaskArray) : DaskArray :=
  { a with shape := 1 :: a.shape }

/-- Shape effect of `dd.take(cc, axis=axis)` (reader.py line 130): the
indexed axis is removed.  Which channel index was taken is not observable at
this shape level. -/
def DaskArray.takeAxis (a : DaskArray) (axis : Nat) : DaskArray :=
  { a with shape := a.shape.eraseIdx axis }

/-- Oracle model of an opened imaris file (the `ims` class of the external
`imaris_ims_file_reader` library).  `extractContrast` records the outcome of
the `try` block of reader.py lines 40-45 that samples the lowest resolution
level: `some (lo, hi)` if it completes with those limits, `none` if it
raises any exception. -/
structure ImsFile where
  resolutionLevels : Nat
  channels : Nat
  timePoints : Nat
  dtype : DType
  filePathComplete : String
  resolution : List Int
  levelShape : Nat → List Nat
  extractContrast : Option (Int × Int)

/-- The `name` metadata entry: a single string when the file has exactly one
channel (reader.py lines 59-60), otherwise the list of channel names. -/
inductive ChannelName
  | one (s : String)
  | many (l : List String)
deriving DecidableEq, Repr

/-- The `resLevel` argument of `ims_reader`: the default `'max'` (a
non-integer, so `isinstance(resLevel, int)` is false) or a Python int. -/
inductive ResLevel
  | max
  | int (n : Int)
deriving DecidableEq, Repr

/-- Exceptions that can escape the modelled code paths: the `ValueError`
raised at reader.py line 120, and `IndexError` from indexing an empty list
or a too-short shape/name list. -/
inductive ImsError
  | valueError (msg : String)
  | indexError
deriving DecidableEq, Repr

/-- The per-layer display properties handled by the widget
(resolution_change_widget.py lines 68-78). -/
structure DisplaySettings where
  opacity : Rat
  gamma : Rat
  colormap : String
  blending : String
  interpolation2d : String
  interpolation3d : String
  visible : Bool
  rendering : String
  contrast_limits : Int × Int
deriving DecidableEq, Repr

/-- The fixed default display settings used when no same-named layer exists
(resolution_change_widget.py lines 83-93). -/
def defaultSettings : DisplaySettings :=
  { opacity := 1
    gamma := 1
    colormap := "gray"
    blending := "translucent"
    interpolation2d := "nearest"
    interpolation3d := "linear"
    visible := true
    rendering := "mip"
    contrast_limits := (0, 255) }

/-- The metadata dictionary assembled by `ims_reader` (reader.py lines
77-115) and later augmented by the widget.  `channel_axis = none` covers
both the Python key holding `None` and the key being absent (deleted at
reader.py line 133); napari treats the two identically and no modelled code
distinguishes them.  `settings` holds the display-setting keys merged in by
`tupleOut[num][1].update(tmp)` in the widget; it is `none` straight out of
the reader.  The update also overwrites the pre-existing `contrast_limits`
key, which is why `copyStep` below rewrites that field too. -/
structure ImsMeta where
  contrast_limits : Int × Int
  name : ChannelName
  md_fileName : String
  md_resolutionLevels : Nat
  channel_axis : Option Nat
  multiscale : Bool
  scale : List Int
  settings : Option DisplaySettings
deriving DecidableEq, Repr

/-- The data part of one returned layer tuple: either a single array
(`data[0]`, non-multiscale case) or a list of arrays. -/
inductive LayerData
  | single (a : DaskArray)
  | multi (l : List DaskArray)
deriving DecidableEq, Repr

/-- Resolution levels carried by one layer's data. -/
def layerLevels : LayerData → List Nat
  | .single a => [a.level]
  | .multi l => l.map DaskArray.level

/-- Fallback contrast limits based on the data type (reader.py lines
46-53). -/
def defaultContrast : DType → Int × Int
  | .uint16 => (0, 65535)
  | .uint8 => (0, 255)
  | .other => (0, 1)

/-- Contrast limits used by `ims_reader` (reader.py lines 39-53): the
extracted ones when the `try` block succeeds, else the dtype defaults. -/
def contrastLimits (f : ImsFile) : Int × Int :=
  match f.extractContrast with
  | some c => c
  | none => defaultContrast f.dtype

/-- Channel names (reader.py lines 55-60): `Channel 0`, `Channel 1`, ...;
collapsed to the bare string when there is exactly one. -/
def channelNames (f : ImsFile) : ChannelName :=
  let names := (List.range f.channels).map (fun cc => "Channel " ++ toString cc)
  match names with
  | [s] => ChannelName.one s
  | l => ChannelName.many l

/-- Channel axis determination (reader.py lines 86-92): axis 1 when the file
has more than one timepoint, else axis 0 when it has more than one channel,
else `None`. -/
def channelAxis (f : ImsFile) : Option Nat :=
  if f.timePoints > 1 then some 1
  else if f.channels > 1 then some 0
  else none

/-- The array built for resolution level `rr` (reader.py line 66 wrapped by
lines 69-74). -/
def levelArray (f : ImsFile) (rr : Nat) : DaskArray :=
  { path := f.filePathComplete, level := rr, shape := f.levelShape rr }

/-- Dimension fix-up (reader.py lines 97-100): when a channel axis exists
and the array has fewer than 4 dimensions, one singleton axis is
prepended. -/
def expandArray (f : ImsFile) (a : DaskArray) : DaskArray :=
  if (channelAxis f).isSome && a.ndim < 4 then a.expandDims else a

/-- The per-level data list after loading every resolution level and
applying the dimension fix-up (reader.py lines 62-74 and 97-100). -/
def expandedData (f : ImsFile) : List DaskArray :=
  ((List.range f.resolutionLevels).map (levelArray f)).map (expandArray f)

/-- The scale tuple (reader.py lines 108-115): the file's per-axis voxel
resolution, with a leading 1 when the data has one more dimension than the
resolution tuple. -/
def scaleOf (f : ImsFile) : List Int :=
  match expandedData f with
  | [] => f.resolution
  | a :: _ => if a.ndim = f.resolution.length + 1 then 1 :: f.resolution else f.resolution

/-- The base metadata dictionary (reader.py lines 77-115): contrast limits,
channel names, nested file metadata, channel axis, the multiscale flag
(computed from the full, uncapped level count, line 106), and scale. -/
def baseMeta (f : ImsFile) : ImsMeta :=
  { contrast_limits := contrastLimits f
    name := channelNames f
    md_fileName := f.filePathComplete
    md_resolutionLevels := f.resolutionLevels
    channel_axis := channelAxis f
    multiscale := decide ((expandedData f).length > 1)
    scale := scaleOf f
    settings := none }

/-- Python list slicing `l[:stop]` with an integer stop: the first `stop`
elements when `stop` is non-negative, else all but the last `-stop`. -/
def pySliceTo {α : Type} (l : List α) (stop : Int) : List α :=
  if 0 ≤ stop then l.take stop.toNat
  else l.take (l.length - (-stop).toNat)

/-- Message of the `ValueError` raised at reader.py line 120. -/
def capMsg (n : Nat) : String :=
  "Selected resolution level is too high: Options are between 0 and " ++ toString (n - 1)

/-- The per-channel metadata dictionary built in the `colorsIndependant`
branch (reader.py lines 137-145): the shared keys are copied, the
`channel_axis` key is dropped (line 133), and `name` is indexed when it is a
list — raising `IndexError` when the index is out of range, as Python
would. -/
def metaForChannel (meta : ImsMeta) (cc : Nat) : Except ImsError ImsMeta :=
  match meta.name with
  | .many l =>
    match l.get? cc with
    | some s =>
      .ok { contrast_limits := meta.contrast_limits
            name := ChannelName.one s
            md_fileName := meta.md_fileName
            md_resolutionLevels := meta.md_resolutionLevels
            channel_axis := none
            multiscale := meta.multiscale
            scale := meta.scale
            settings := none }
    | none => .error .indexError
  | .one s =>
    .ok { contrast_limits := meta.contrast_limits
          name := ChannelName.one s
          md_fileName := meta.md_fileName
          md_resolutionLevels := meta.md_resolutionLevels
          channel_axis := none
          multiscale := meta.multiscale
          scale := meta.scale
          settings := none }

/-- The non-split return value (reader.py line 153): the whole capped list
under one metadata dictionary when `multiscale` is set, else the single
`data[0]` array (raising `IndexError` on an empty list, as `data[0]`
would). -/
def plainOutput (data : List DaskArray) (meta : ImsMeta) :
    Except ImsError (List (LayerData × ImsMeta)) :=
  if meta.multiscale then .ok [(LayerData.multi data, meta)]
  else
    match data.head? with
    | none => .error .indexError
    | some a0 => .ok [(LayerData.single a0, meta)]

/-- The channel-splitting return value (reader.py lines 124-151): the number
of channels is read off `data[0].shape[channel_axis]`, each channel gets the
per-level `take` of every capped array, and a per-channel metadata
dictionary. -/
def splitOutput (data : List DaskArray) (meta : ImsMeta) (axis : Nat) :
    Except ImsError (List (LayerData × ImsMeta)) :=
  match data.head? with
  | none => .error .indexError
  | some a0 =>
    match a0.shape.get? axis with
    | none => .error .indexError
    | some nc =>
      match (List.range nc).mapM (metaForChannel meta) with
      | .error e => .error e
      | .ok metas =>
        .ok (metas.map (fun m =>
          (LayerData.multi (data.map (fun dd => dd.takeAxis axis)), m)))

/-- Dispatch between the two return shapes (reader.py lines 123-153): the
split form is used exactly when `colorsIndependant` is set and the channel
axis is not `None`. -/
def finishOutput (data : List DaskArray) (meta : ImsMeta) (ca : Option Nat)
    (ci : Bool) : Except ImsError (List (LayerData × ImsMeta)) :=
  match ca with
  | some axis => if ci then splitOutput data meta axis else plainOutput data meta
  | none => plainOutput data meta

/-- The reader adapter `ims_reader` (reader.py lines 31-153).  A file with
zero resolution levels raises `IndexError` at `data[0].shape` (line 103)
before the resolution cap is examined; otherwise, an integer `resLevel`
first raises `ValueError` when `resLevel + 1 > len(data)` (lines 118-120)
and then caps the data to `data[:resLevel + 1]` (line 121, modelled with
Python slice semantics). -/
def imsReader (f : ImsFile) (resLevel : ResLevel) (colorsIndependant : Bool) :
    Except ImsError (List (LayerData × ImsMeta)) :=
  if f.resolutionLevels = 0 then .error .indexError
  else
    match resLevel with
    | .int n =>
      if (f.resolutionLevels : Int) < n + 1 then
        .error (.valueError (capMsg f.resolutionLevels))
      else
        finishOutput (pySliceTo (expandedData f) (n + 1)) (baseMeta f)
          (channelAxis f) colorsIndependant
    | .max =>
      finishOutput (expandedData f) (baseMeta f) (channelAxis f) colorsIndependant

/-- Input to `napari_get_reader`: a Python string, or any non-string
value. -/
inductive PyValue
  | str (s : String)
  | other
deriving DecidableEq, Repr

/-- Splits a character list at the last occurrence of `c`: returns
`some (pre, post)` with `l = pre ++ c :: post` and `c` not in `post`, or
`none` when `c` does not occur. -/
def splitAtLast (c : Char) : List Char → Option (List Char × List Char)
  | [] => none
  | a :: rest =>
    match splitAtLast c rest with
    | some (pre, post) => some (a :: pre, post)
    | none => if a = c then some ([], rest) else none

/-- Model of `os.path.splitext` (posixpath semantics, as used at reader.py
line 157): the extension starts at the last dot occurring after the last
slash, except that a basename consisting only of leading dots before that
dot has no extension. -/
def splitext (p : String) : String × String :=
  let l := p.toList
  let base := match splitAtLast '/' l with
    | some (_, post) => post
    | none => l
  match splitAtLast '.' base with
  | none => (p, "")
  | some (stem, after) =>
    if stem.all (fun ch => ch = '.') then (p, "")
    else (String.mk (l.take (l.length - (after.length + 1))),
          String.mk ('.' :: after))

/-- Model of Python `str.lower()` (ASCII case folding suffices for the
`.ims` comparison). -/
def lowerString (s : String) : String := String.mk (s.toList.map Char.toLower)

/-- The plugin hook `napari_get_reader` (reader.py lines 155-158): the
reader function for string paths whose lower-cased extension is `.ims`,
implicitly `None` for everything else. -/
def napari_get_reader (p : PyValue) :
    Option (ImsFile → ResLevel → Bool → Except ImsError (List (LayerData × ImsMeta))) :=
  match p with
  | .str s => if lowerString (splitext s).2 = ".ims" then some imsReader else none
  | .other => none

/-- A napari layer, as far as the widget observes it: its name, whether it
is an `Image` layer, the `fileName` and `resolutionLevels` entries of its
metadata dictionary (absent keys modelled by `none`), and its display
settings. -/
structure Layer where
  name : String
  isImage : Bool
  md_fileName : Option String
  md_resolutionLevels : Option Nat
  settings : DisplaySettings
deriving DecidableEq, Repr

/-- The napari viewer state the widget touches: the layer list and
`viewer.dims.ndisplay`. -/
structure Viewer where
  layers : List Layer
  ndisplay : Nat
deriving DecidableEq, Repr

/-- Result of one widget invocation: the viewer state afterwards and the
messages printed. -/
structure WidgetResult where
  viewer : Viewer
  printed : List String
deriving DecidableEq, Repr

/-- The layer search predicate (resolution_change_widget.py line 27):
`isinstance(layer, Image) and 'fileName' in layer.metadata`. -/
def isImsLayer (l : Layer) : Bool := l.isImage && l.md_fileName.isSome

/-- First layer with the given name, as napari name lookup
`viewer.layers[channel_name]` / membership `channel_name in viewer.layers`
behaves (names are unique in a real viewer). -/
def findLayer : List Layer → String → Option Layer
  | [], _ => none
  | l :: rest, s => if l.name = s then some l else findLayer rest s

/-- Deletion by name, `del viewer.layers[channel_name]`
(resolution_change_widget.py line 80): the first layer with that name is
removed. -/
def removeLayer : List Layer → String → List Layer
  | [], _ => []
  | l :: rest, s => if l.name = s then rest else l :: removeLayer rest s

/-- One iteration of the settings-copy loop (resolution_change_widget.py
lines 65-94): when a layer with the channel name exists, its display
settings are merged into the new metadata and the layer is deleted;
otherwise the fixed defaults are merged.  The merge overwrites the
metadata's `contrast_limits` key.  A non-string channel name (a list) never
matches a layer name, so it takes the default branch. -/
def copyStep (layers : List Layer) (m : ImsMeta) : List Layer × ImsMeta :=
  match m.name with
  | .one s =>
    match findLayer layers s with
    | some old =>
      (removeLayer layers s,
       { m with settings := some old.settings,
                contrast_limits := old.settings.contrast_limits })
    | none =>
      (layers,
       { m with settings := some defaultSettings,
                contrast_limits := defaultSettings.contrast_limits })
  | .many _ =>
    (layers,
     { m with settings := some defaultSettings,
              contrast_limits := defaultSettings.contrast_limits })

/-- The whole settings-copy loop, threading the layer list through every
tuple of the reader output in order. -/
def copyLoop : List Layer → List (LayerData × ImsMeta) →
    List Layer × List (LayerData × ImsMeta)
  | layers, [] => (layers, [])
  | layers, (d, m) :: rest =>
    let p := copyStep layers m
    let q := copyLoop p.1 rest
    (q.1, (d, p.2) :: q.2)

/-- Display string of a channel name when used as a layer name.  The widget
only ever produces single-string names here; the list case is a stand-in
and is never reached by the claims. -/
def ChannelName.display : ChannelName → String
  | .one s => s
  | .many l => String.intercalate ", " l

/-- The layer created by `viewer.add_image(data, **meta)`
(resolution_change_widget.py lines 97-99). -/
def layerOfTuple (dm : LayerData × ImsMeta) : Layer :=
  { name := dm.2.name.display
    isImage := true
    md_fileName := some dm.2.md_fileName
    md_resolutionLevels := some dm.2.md_resolutionLevels
    settings := dm.2.settings.getD defaultSettings }

/-- Messages printed on the three early-return paths of the widget (the
source prints them in Chinese; the wording is irrelevant to every claim). -/
def msgNoLayer : String := "No IMS layer with fileName metadata was found."

/-- Message for the missing `resolutionLevels` early return. -/
def msgNoLevels : String := "Unable to get the number of available resolution levels."

/-- Message for the out-of-range resolution level early return. -/
def msgBadLevel : String := "The selected resolution level is invalid."

/-- The dock-widget callback `resolution_change`
(resolution_change_widget.py lines 13-99).  `env` is the file system
oracle: the imaris file found at a given path.  The three validation
failures and a caught `ValueError` from the reader return early with a
printed message; any other reader exception propagates.  On success the
viewer is forced to 2D display, the settings-copy loop runs, and the new
layers are appended. -/
def resolution_change (env : String → ImsFile) (v : Viewer) (lrl : Int) :
    Except ImsError WidgetResult :=
  match v.layers.find? isImsLayer with
  | none => .ok ⟨v, [msgNoLayer]⟩
  | some imsLayer =>
    match imsLayer.md_resolutionLevels with
    | none => .ok ⟨v, [msgNoLevels]⟩
    | some available =>
      if lrl < 0 ∨ (available : Int) ≤ lrl then .ok ⟨v, [msgBadLevel]⟩
      else
        match imsReader (env (imsLayer.md_fileName.getD "")) (.int lrl) true with
        | .error (.valueError e) => .ok ⟨v, [e]⟩
        | .error .indexError => .error .indexError
        | .ok tupleOut =>
          let v1 : Viewer := if v.ndisplay = 3 then { v with ndisplay := 2 } else v
          let r := copyLoop v1.layers tupleOut
          .ok ⟨{ layers := r.1 ++ r.2.map layerOfTuple, ndisplay := v1.ndisplay },
               r.2.map (fun dm => "Adding layer " ++ dm.2.name.display)⟩

/-- True exactly when the reader call returns normally. -/
def readerSucceeds (f : ImsFile) (r : ResLevel) (ci : Bool) : Bool :=
  match imsReader f r ci with
  | .ok _ => true
  | .error _ => false

/-- Channel-axis entry of the first returned layer's metadata, when the
reader succeeds with a non-empty list. -/
def firstChannelAxis (r : Except ImsError (List (LayerData × ImsMeta))) :
    Option (Option Nat) :=
  match r with
  | .ok ((_, m) :: _) => some m.channel_axis
  | _ => none

/-- Layer list of the viewer after a widget run that returned normally. -/
def resultLayers (r : Except ImsError WidgetResult) : Option (List Layer) :=
  match r with
  | .ok w => some w.viewer.layers
  | .error _ => none

/-- The widget returned normally with the unchanged viewer and exactly one
printed message. -/
def returnsEarlyWithMessage (r : Except ImsError WidgetResult) (v : Viewer) : Prop :=
  ∃ msg, r = Except.ok ⟨v, [msg]⟩

/-- The widget returned normally with the layer list and display mode it
started from. -/
def stateUnchanged (r : Except ImsError WidgetResult) (v : Viewer) : Prop :=
  ∃ w, r = Except.ok w ∧ w.viewer.layers = v.layers ∧ w.viewer.ndisplay = v.ndisplay

/-- Single-string names of the reader output tuples (the only names that can
match a layer). -/
def oneNames (ts : List (LayerData × ImsMeta)) : List String :=
  ts.filterMap (fun dm => match dm.2.name with | .one s => some s | .many _ => none)

/-- Specification of the display settings each rebuilt layer should receive,
relative to the layer list at widget start: those of the first same-named
layer when one exists, the fixed defaults otherwise. -/
def copiedSettingsSpec (layers : List Layer) (cn : ChannelName) : DisplaySettings :=
  match cn with
  | .one s =>
    match findLayer layers s with
    | some old => old.settings
    | none => defaultSettings
  | .many _ => defaultSettings

/-- Predicate keeping exactly the layers whose name matches no output
tuple. -/
def keepPred (ts : List (LayerData × ImsMeta)) (l : Layer) : Bool :=
  decide (l.name ∉ oneNames ts)

/-- Expected transformation of one output tuple by the settings-copy loop:
the predicted settings are merged in, overwriting `contrast_limits`. -/
def updTuple (layers : List Layer) (dm : LayerData × ImsMeta) : LayerData × ImsMeta :=
  (dm.1, { dm.2 with
           settings := some (copiedSettingsSpec layers dm.2.name),
           contrast_limits := (copiedSettingsSpec layers dm.2.name).contrast_limits })

/-- Concrete two-level file used to witness the resolution-cap theorem. -/
def fileW1 : ImsFile :=
  { resolutionLevels := 2, channels := 1, timePoints := 1, dtype := .uint16,
    filePathComplete := "w.ims", resolution := [3, 2, 1],
    levelShape := fun _ => [1, 1, 2, 2, 2], extractContrast := some (3, 77) }

/-- Level-0 array of `fileW1`. -/
def arrW1 : DaskArray := { path := "w.ims", level := 0, shape := [1, 1, 2, 2, 2] }

/-- Metadata `fileW1` produces. -/
def metaW1 : ImsMeta :=
  { contrast_limits := (3, 77), name := ChannelName.one "Channel 0",
    md_fileName := "w.ims", md_resolutionLevels := 2, channel_axis := none,
    multiscale := true, scale := [3, 2, 1], settings := none }

/-- Output of `imsReader fileW1 (.int 0) false`. -/
def outW1 : List (LayerData × ImsMeta) := [(LayerData.multi [arrW1], metaW1)]

/-- Concrete file with two timepoints and a single channel: the channel-axis
counterexample input. -/
def cexFileC2 : ImsFile :=
  { resolutionLevels := 1, channels := 1, timePoints := 2, dtype := .uint8,
    filePathComplete := "c.ims", resolution := [3, 2, 1],
    levelShape := fun _ => [2, 1, 4, 4], extractContrast := none }

/-- Concrete two-channel file used to witness the amended channel-axis
theorem. -/
def fileW2 : ImsFile :=
  { resolutionLevels := 1, channels := 2, timePoints := 1, dtype := .uint8,
    filePathComplete := "w2.ims", resolution := [1, 1, 1],
    levelShape := fun _ => [1, 2, 2, 2, 2], extractContrast := none }

/-- Minimal single-level file used by several widget witnesses. -/
def fileW3 : ImsFile :=
  { resolutionLevels := 1, channels := 1, timePoints := 1, dtype := .other,
    filePathComplete := "w3.ims", resolution := [1, 1, 1],
    levelShape := fun _ => [1, 1, 1, 1, 1], extractContrast := none }

/-- File system oracle for the failure-path witness. -/
def envW3 : String → ImsFile := fun _ => fileW3

/-- Viewer with no layers at all. -/
def viewerW3 : Viewer := { layers := [], ndisplay := 2 }

/-- Concrete uint8 file whose contrast extraction raises. -/
def fileW4 : ImsFile :=
  { resolutionLevels := 1, channels := 1, timePoints := 1, dtype := .uint8,
    filePathComplete := "w4.ims", resolution := [1, 1, 1],
    levelShape := fun _ => [1, 1, 2, 2, 2], extractContrast := none }

/-- The single array of `fileW4`. -/
def arrW4 : DaskArray := { path := "w4.ims", level := 0, shape := [1, 1, 2, 2, 2] }

/-- Metadata `fileW4` produces: dtype-default contrast limits. -/
def metaW4 : ImsMeta :=
  { contrast_limits := (0, 255), name := ChannelName.one "Channel 0",
    md_fileName := "w4.ims", md_resolutionLevels := 1, channel_axis := none,
    multiscale := false, scale := [1, 1, 1], settings := none }

/-- Output of `imsReader fileW4 .max false`. -/
def outW4 : List (LayerData × ImsMeta) := [(LayerData.single arrW4, metaW4)]

/-- An old layer with non-default display settings, matched by name in the
settings-copy witness. -/
def layerW5 : Layer :=
  { name := "Channel 0", isImage := true, md_fileName := some "x.ims",
    md_resolutionLevels := some 3,
    settings := { opacity := (1 : Rat) / 2, gamma := 2, colormap := "red",
                  blending := "additive", interpolation2d := "linear",
                  interpolation3d := "nearest", visible := false,
                  rendering := "iso", contrast_limits := (5, 99) } }

/-- Layer list for the settings-copy witness. -/
def layersW5 : List Layer := [layerW5]

/-- Reader-style metadata named like `layerW5`. -/
def mW5 : ImsMeta :=
  { contrast_limits := (0, 65535), name := ChannelName.one "Channel 0",
    md_fileName := "x.ims", md_resolutionLevels := 3, channel_axis := none,
    multiscale := true, scale := [1, 1, 1], settings := none }

/-- Reader output for the settings-copy witness. -/
def tsW5 : List (LayerData × ImsMeta) := [(LayerData.multi [], mW5)]

/-- Image layer whose metadata lacks `resolutionLevels`. -/
def layerW6 : Layer :=
  { name := "a", isImage := true, md_fileName := some "y.ims",
    md_resolutionLevels := none, settings := defaultSettings }

/-- Viewer for the missing-metadata witness. -/
def viewerW6 : Viewer := { layers := [layerW6], ndisplay := 3 }

/-- File system oracle for the missing-metadata witness. -/
def envW6 : String → ImsFile := fun _ => fileW3

/-- Image layer advertising 3 resolution levels. -/
def layerW8 : Layer :=
  { name := "b", isImage := true, md_fileName := some "z.ims",
    md_resolutionLevels := some 3, settings := defaultSettings }

/-- Viewer for the range-check witness. -/
def viewerW8 : Viewer := { layers := [layerW8], ndisplay := 2 }

/-- File system oracle for the range-check witness. -/
def envW8 : String → ImsFile := fun _ => fileW3

/-- Eleven-level file refuting the 0-9 spinbox range claim. -/
def fileC8 : ImsFile :=
  { resolutionLevels := 11, channels := 1, timePoints := 1, dtype := .uint16,
    filePathComplete := "f.ims", resolution := [1, 1, 1],
    levelShape := fun _ => [1, 1, 4, 4, 4], extractContrast := some (0, 100) }

/-- File system oracle for the range counterexample. -/
def envC8 : String → ImsFile := fun _ => fileC8

/-- Pre-existing layer (whose name matches no new channel name). -/
def oldLayerC8 : Layer :=
  { name := "existing", isImage := true, md_fileName := some "f.ims",
    md_resolutionLevels := some 11, settings := defaultSettings }

/-- Viewer for the range counterexample. -/
def viewerC8 : Viewer := { layers := [oldLayerC8], ndisplay := 2 }

/-- The layer the widget adds when level 10 of `fileC8` is requested. -/
def newLayerC8 : Layer :=
  { name := "Channel 0", isImage := true, md_fileName := some "f.ims",
    md_resolutionLevels := some 11, settings := defaultSettings }

/-- Concrete two-level file for the multiscale-flag witness. -/
def fileW9 : ImsFile :=
  { resolutionLevels := 2, channels := 1, timePoints := 1, dtype := .uint8,
    filePathComplete := "w9.ims", resolution := [1, 1, 1],
    levelShape := fun _ => [1, 1, 3, 3, 3], extractContrast := none }

/-- Concrete single-channel single-timepoint file for the
channel-splitting-flag witness. -/
def fileW10 : ImsFile :=
  { resolutionLevels := 3, channels := 1, timePoints := 1, dtype := .uint8,
    filePathComplete := "w10.ims", resolution := [1, 1, 1],
    levelShape := fun _ => [1, 1, 2, 2, 2], extractContrast := none }

/-
Theorems.
-/

theorem expandedData_length (f : ImsFile) :
    (expandedData f).length = f.resolutionLevels := by
  simp [expandedData]

theorem expandArray_level (f : ImsFile) (a : DaskArray) :
    (expandArray f a).level = a.level := by
  unfold expandArray
  split <;> rfl

theorem finishOutput_false (data : List DaskArray) (meta : ImsMeta)
    (ca : Option Nat) :
    finishOutput data meta ca false = plainOutput data meta := by
  cases ca <;> rfl

theorem plainOutput_total (data : List DaskArray) (meta : ImsMeta)
    (hne : data ≠ []) :
    ∃ out, plainOutput data meta = Except.ok out ∧ out ≠ [] ∧
      ∀ p ∈ out, p.2 = meta := by
  unfold plainOutput
  split
  · exact ⟨_, rfl, by simp, by simp⟩
  · match hd : data.head? with
    | some a0 => exact ⟨_, rfl, by simp, by simp⟩
    | none => exact absurd (List.head?_eq_none_iff.mp hd) hne

theorem expandedData_ne_nil (f : ImsFile) (hN : f.resolutionLevels ≠ 0) :
    expandedData f ≠ [] := by
  intro hcon
  apply hN
  have h := expandedData_length f
  rw [hcon] at h
  simpa using h.symm

theorem imsReader_max_false_meta (f : ImsFile) (hN : f.resolutionLevels ≠ 0) :
    ∃ out, imsReader f ResLevel.max false = Except.ok out ∧ out ≠ [] ∧
      ∀ p ∈ out, p.2 = baseMeta f := by
  obtain ⟨out, hok, hne, hmeta⟩ :=
    plainOutput_total (expandedData f) (baseMeta f) (expandedData_ne_nil f hN)
  refine ⟨out, ?_, hne, hmeta⟩
  unfold imsReader
  rw [if_neg hN, finishOutput_false]
  exact hok

/-- C7: the plugin hook returns the reader function exactly for string paths
whose extension, lower-cased, is `.ims`, and returns `None` for every other
input. -/
theorem napari_get_reader_iff (p : PyValue) :
    (napari_get_reader p = some imsReader ↔
      ∃ s, p = PyValue.str s ∧ lowerString (splitext s).2 = ".ims") ∧
    (napari_get_reader p = some imsReader ∨ napari_get_reader p = none) := by
  constructor
  · constructor
    · intro h
      cases p with
      | str s =>
        refine ⟨s, rfl, ?_⟩
        by_contra hne
        simp [napari_get_reader, hne] at h
      | other => simp [napari_get_reader] at h
    · rintro ⟨s, rfl, hs⟩
      simp [napari_get_reader, hs]
  · cases p with
    | str s =>
      by_cases hs : lowerString (splitext s).2 = ".ims"
      · left
        simp [napari_get_reader, hs]
      · right
        simp [napari_get_reader, hs]
    | other => exact Or.inr rfl

/-- Witness for C7: a concrete upper-cased `.IMS` path is accepted and a
non-string input yields `None`. -/
theorem napari_get_reader_iff_witness :
    napari_get_reader (PyValue.str "test.IMS") = some imsReader ∧
    napari_get_reader PyValue.other = none := by
  constructor
  · exact (napari_get_reader_iff (PyValue.str "test.IMS")).1.mpr
      ⟨"test.IMS", rfl, by decide⟩
  · rfl

/-- C10: for a single-channel, single-timepoint file (channel axis `None`),
the `colorsIndependant` flag has no effect on the reader output. -/
theorem imsReader_ci_ignored (f : ImsFile) (r : ResLevel)
    (hc : f.channels = 1) (ht : f.timePoints = 1) :
    imsReader f r true = imsReader f r false := by
  have hca : channelAxis f = none := by simp [channelAxis, hc, ht]
  cases r <;> simp [imsReader, hca, finishOutput]

/-- Witness for C10 at a concrete three-level file. -/
theorem imsReader_ci_ignored_witness :
    imsReader fileW10 (ResLevel.int 1) true = imsReader fileW10 (ResLevel.int 1) false :=
  imsReader_ci_ignored fileW10 (ResLevel.int 1) rfl rfl

/-- Counterexample to C2 as stated: a file with two timepoints and a single
channel still gets the integer channel axis 1 in its returned metadata, so
`channel_axis` being an integer is not equivalent to a channel count above
one. -/
theorem channel_axis_cex :
    firstChannelAxis (imsReader cexFileC2 ResLevel.max false) = some (some 1) ∧
    cexFileC2.channels = 1 := by
  constructor <;> rfl

/-- C2 (amended): the returned `channel_axis` is an integer exactly when the
file has more than one timepoint or more than one channel; the returned
metadata always carries `channelAxis f`, and when a channel axis exists any
level array with fewer than 4 dimensions gets a singleton axis prepended to
its shape. -/
theorem channel_axis_amended (f : ImsFile) (hN : f.resolutionLevels ≠ 0) :
    ((channelAxis f).isSome = true ↔ (1 < f.timePoints ∨ 1 < f.channels)) ∧
    (∀ out, imsReader f ResLevel.max false = Except.ok out →
      ∀ p ∈ out, p.2.channel_axis = channelAxis f) ∧
    (∀ a ∈ expandedData f, (channelAxis f).isSome = true →
      (f.levelShape a.level).length < 4 → a.shape = 1 :: f.levelShape a.level) := by
  refine ⟨?_, ?_, ?_⟩
  · unfold channelAxis
    by_cases h1 : 1 < f.timePoints <;> by_cases h2 : 1 < f.channels <;>
      simp [h1, h2]
  · intro out hout p hp
    obtain ⟨out', hok, _, hmeta⟩ := imsReader_max_false_meta f hN
    rw [hout] at hok
    cases hok
    rw [hmeta p hp]
    rfl
  · intro a ha hsome hlt
    simp only [expandedData, List.mem_map] at ha
    obtain ⟨b, ⟨rr, hrr, hb⟩, hab⟩ := ha
    subst hb
    subst hab
    have hlev : (expandArray f (levelArray f rr)).level = rr := by
      rw [expandArray_level]
      rfl
    rw [hlev] at hlt ⊢
    unfold expandArray
    rw [if_pos]
    · rfl
    · simp [hsome, DaskArray.ndim, levelArray, hlt]

/-- Witness for C2 (amended) at a concrete two-channel file. -/
theorem channel_axis_amended_witness :
    (channelAxis fileW2).isSome = true ↔ (1 < fileW2.timePoints ∨ 1 < fileW2.channels) :=
  (channel_axis_amended fileW2 (by decide)).1

/-- C4: when contrast extraction raises, the reader still succeeds and every
returned metadata dictionary carries the dtype-based default contrast
limits: 0-65535 for uint16, 0-255 for uint8, 0-1 otherwise. -/
theorem imsReader_contrast_fallback (f : ImsFile)
    (hN : f.resolutionLevels ≠ 0) (hfail : f.extractContrast = none) :
    readerSucceeds f ResLevel.max false = true ∧
    ∀ out, imsReader f ResLevel.max false = Except.ok out →
      ∀ p ∈ out, p.2.contrast_limits =
        (if f.dtype = DType.uint16 then ((0 : Int), (65535 : Int))
         else if f.dtype = DType.uint8 then (0, 255) else (0, 1)) := by
  obtain ⟨out, hok, _, hmeta⟩ := imsReader_max_false_meta f hN
  constructor
  · unfold readerSucceeds
    rw [hok]
  · intro out' hout' p hp
    rw [hout'] at hok
    cases hok
    rw [hmeta p hp]
    show (baseMeta f).contrast_limits = _
    unfold baseMeta contrastLimits
    rw [hfail]
    cases hd : f.dtype <;> simp [defaultContrast, hd]

/-- Witness for C4: the concrete uint8 file with failing extraction yields a
successful read whose metadata holds contrast limits 0-255. -/
theorem imsReader_contrast_fallback_witness :
    readerSucceeds fileW4 ResLevel.max false = true ∧
    metaW4.contrast_limits = ((0 : Int), (255 : Int)) := by
  have h := imsReader_contrast_fallback fileW4 (by decide) rfl
  refine ⟨h.1, ?_⟩
  have h2 := h.2 outW4 rfl (LayerData.single arrW4, metaW4) (by simp [outW4])
  simpa [fileW4] using h2

/-- C9: for a file with more than one resolution level, a cap of 0 still
yields `multiscale = true` (the flag reflects the file's total level count)
and the single kept level is returned wrapped as a one-element list. -/
theorem imsReader_multiscale_uncapped (f : ImsFile)
    (h1 : 1 < f.resolutionLevels) :
    imsReader f (ResLevel.int 0) false =
      Except.ok [(LayerData.multi ((expandedData f).take 1), baseMeta f)] ∧
    (baseMeta f).multiscale = true ∧
    ((expandedData f).take 1).length = 1 := by
  have hN : f.resolutionLevels ≠ 0 := by omega
  have hms : (baseMeta f).multiscale = true := by
    show decide ((expandedData f).length > 1) = true
    rw [expandedData_length]
    simpa using h1
  refine ⟨?_, hms, ?_⟩
  · have step : imsReader f (ResLevel.int 0) false =
        finishOutput (pySliceTo (expandedData f) (0 + 1)) (baseMeta f)
          (channelAxis f) false := by
      simp only [imsReader]
      rw [if_neg hN, if_neg (by push_cast; omega)]
    have hslice : pySliceTo (expandedData f) ((0 : Int) + 1) =
        (expandedData f).take 1 := by
      unfold pySliceTo
      rw [if_pos (by omega)]
      rfl
    rw [step, finishOutput_false, hslice]
    unfold plainOutput
    rw [if_pos hms]
  · rw [List.length_take, expandedData_length]
    omega

/-- Witness for C9 at a concrete two-level file. -/
theorem imsReader_multiscale_uncapped_witness :
    (baseMeta fileW9).multiscale = true ∧
    ((expandedData fileW9).take 1).length = 1 :=
  (imsReader_multiscale_uncapped fileW9 (by decide)).2

/-- C3: each recognized failure (no compatible layer in the viewer, or an
out-of-range resolution index, whether caught by the metadata check or by
the `ValueError` raised inside the reader) makes the widget return early
with one printed message, the viewer unchanged, and no exception escaping. -/
theorem resolution_change_failures (env : String → ImsFile) (v : Viewer) (lrl : Int)
    (h : v.layers.find? isImsLayer = none ∨
         (∃ L a, v.layers.find? isImsLayer = some L ∧
            L.md_resolutionLevels = some a ∧ (lrl < 0 ∨ (a : Int) ≤ lrl)) ∨
         (∃ L a m, v.layers.find? isImsLayer = some L ∧
            L.md_resolutionLevels = some a ∧ ¬(lrl < 0 ∨ (a : Int) ≤ lrl) ∧
            imsReader (env (L.md_fileName.getD "")) (ResLevel.int lrl) true =
              Except.error (ImsError.valueError m))) :
    returnsEarlyWithMessage (resolution_change env v lrl) v := by
  rcases h with h | ⟨L, a, hL, ha, hr⟩ | ⟨L, a, m, hL, ha, hr, he⟩
  · refine ⟨msgNoLayer, ?_⟩
    simp only [resolution_change, h]
  · refine ⟨msgBadLevel, ?_⟩
    simp only [resolution_change, hL, ha]
    rw [if_pos hr]
  · refine ⟨m, ?_⟩
    simp only [resolution_change, hL, ha]
    rw [if_neg hr, he]

/-- Witness for C3: the empty viewer has no compatible layer and the widget
returns early with a message. -/
theorem resolution_change_failures_witness :
    returnsEarlyWithMessage (resolution_change envW3 viewerW3 0) viewerW3 :=
  resolution_change_failures envW3 viewerW3 0 (Or.inl rfl)

/-- C6: on each recognized failure (no compatible layer, missing
`resolutionLevels` metadata, out-of-range level) the widget leaves the
viewer untouched: same layer list, same display mode. -/
theorem resolution_change_state_on_error (env : String → ImsFile) (v : Viewer)
    (lrl : Int)
    (h : v.layers.find? isImsLayer = none ∨
         (∃ L, v.layers.find? isImsLayer = some L ∧ L.md_resolutionLevels = none) ∨
         (∃ L a, v.layers.find? isImsLayer = some L ∧
            L.md_resolutionLevels = some a ∧ (lrl < 0 ∨ (a : Int) ≤ lrl))) :
    stateUnchanged (resolution_change env v lrl) v := by
  rcases h with h | ⟨L, hL, ha⟩ | ⟨L, a, hL, ha, hr⟩
  · exact ⟨⟨v, [msgNoLayer]⟩, by simp only [resolution_change, h], rfl, rfl⟩
  · exact ⟨⟨v, [msgNoLevels]⟩, by simp only [resolution_change, hL, ha], rfl, rfl⟩
  · refine ⟨⟨v, [msgBadLevel]⟩, ?_, rfl, rfl⟩
    simp only [resolution_change, hL, ha]
    rw [if_pos hr]

/-- Witness for C6: a viewer whose only image layer lacks the
`resolutionLevels` metadata entry keeps its layers and display mode. -/
theorem resolution_change_state_on_error_witness :
    stateUnchanged (resolution_change envW6 viewerW6 0) viewerW6 :=
  resolution_change_state_on_error envW6 viewerW6 0
    (Or.inr (Or.inl ⟨layerW6, rfl, rfl⟩))

/-- C8 (amended): the widget validates the requested level against the
matched layer's `resolutionLevels` metadata, not a fixed 0-9 spinbox range:
a negative level, or one at least the advertised level count, is rejected by
an early return with a printed message and no reload. -/
theorem resolution_change_range_check (env : String → ImsFile) (v : Viewer)
    (lrl : Int) (L : Layer) (a : Nat)
    (hL : v.layers.find? isImsLayer = some L)
    (ha : L.md_resolutionLevels = some a)
    (hout : lrl < 0 ∨ (a : Int) ≤ lrl) :
    resolution_change env v lrl = Except.ok ⟨v, [msgBadLevel]⟩ := by
  simp only [resolution_change, hL, ha]
  rw [if_pos hout]

/-- Witness for C8 (amended): level 99 against 3 advertised levels is
rejected unchanged. -/
theorem resolution_change_range_check_witness :
    resolution_change envW8 viewerW8 99 = Except.ok ⟨viewerW8, [msgBadLevel]⟩ :=
  resolution_change_range_check envW8 viewerW8 99 layerW8 3 rfl rfl
    (Or.inr (by decide))

theorem takeAxis_level (a : DaskArray) (axis : Nat) :
    (a.takeAxis axis).level = a.level := rfl

theorem expandedData_map_level (f : ImsFile) :
    (expandedData f).map DaskArray.level = List.range f.resolutionLevels := by
  unfold expandedData
  rw [List.map_map, List.map_map]
  have hcomp : ((DaskArray.level ∘ expandArray f) ∘ levelArray f) = fun rr => rr := by
    funext rr
    simp [Function.comp, expandArray_level, levelArray]
  rw [hcomp]
  simp

theorem capped_map_level (f : ImsFile) (n : Int) (h0 : 0 ≤ n)
    (hle : n + 1 ≤ (f.resolutionLevels : Int)) :
    (pySliceTo (expandedData f) (n + 1)).map DaskArray.level =
      List.range (n + 1).toNat := by
  unfold pySliceTo
  rw [if_pos (by omega), List.map_take, expandedData_map_level, List.take_range]
  congr 1
  omega

theorem splitOutput_ok_mem (data : List DaskArray) (meta : ImsMeta) (axis : Nat)
    (out : List (LayerData × ImsMeta))
    (h : splitOutput data meta axis = Except.ok out) :
    ∀ p ∈ out, p.1 = LayerData.multi (data.map (fun dd => dd.takeAxis axis)) := by
  unfold splitOutput at h
  split at h
  · exact Except.noConfusion h
  · split at h
    · exact Except.noConfusion h
    · split at h
      · exact Except.noConfusion h
      · cases h
        intro p hp
        simp only [List.mem_map] at hp
        obtain ⟨m, hm2, hpm⟩ := hp
        rw [← hpm]

theorem plainOutput_ok_mem (data : List DaskArray) (meta : ImsMeta)
    (out : List (LayerData × ImsMeta))
    (h : plainOutput data meta = Except.ok out) :
    ∀ p ∈ out, (meta.multiscale = true ∧ p.1 = LayerData.multi data) ∨
      (meta.multiscale = false ∧ ∃ a0, data.head? = some a0 ∧
        p.1 = LayerData.single a0) := by
  unfold plainOutput at h
  split at h
  · next hms =>
    cases h
    intro p hp
    simp only [List.mem_singleton] at hp
    subst hp
    exact Or.inl ⟨hms, rfl⟩
  · next hms =>
    split at h
    · exact Except.noConfusion h
    · next a0 hd =>
      cases h
      intro p hp
      simp only [List.mem_singleton] at hp
      subst hp
      exact Or.inr ⟨by simpa using hms, a0, hd, rfl⟩

theorem finishOutput_ok_levels (data : List DaskArray) (meta : ImsMeta)
    (ca : Option Nat) (ci : Bool) (out : List (LayerData × ImsMeta))
    (h : finishOutput data meta ca ci = Except.ok out) :
    ∀ p ∈ out, layerLevels p.1 = data.map DaskArray.level ∨
      (meta.multiscale = false ∧ ∃ a0, data.head? = some a0 ∧
        layerLevels p.1 = [a0.level]) := by
  have hplain : plainOutput data meta = Except.ok out →
      ∀ p ∈ out, layerLevels p.1 = data.map DaskArray.level ∨
        (meta.multiscale = false ∧ ∃ a0, data.head? = some a0 ∧
          layerLevels p.1 = [a0.level]) := by
    intro hp p hpm
    rcases plainOutput_ok_mem data meta out hp p hpm with ⟨_, h1⟩ | ⟨hms, a0, hd, h1⟩
    · exact Or.inl (by rw [h1]; rfl)
    · exact Or.inr ⟨hms, a0, hd, by rw [h1]; rfl⟩
  unfold finishOutput at h
  cases ca with
  | none => exact hplain h
  | some axis =>
    cases ci with
    | false => exact hplain h
    | true =>
      intro p hpm
      left
      rw [splitOutput_ok_mem data meta axis out h p hpm]
      show (data.map (fun dd => dd.takeAxis axis)).map DaskArray.level = _
      rw [List.map_map]
      rfl

/-- C1: an integer cap accepted by the reader (0 <= resLevel <= N-1, with N
the file's resolution-level count) keeps in every returned layer exactly
resolution levels 0 through resLevel — hence at most N levels — while an
integer cap with resLevel + 1 > N raises `ValueError`. -/
theorem imsReader_resLevel_cap (f : ImsFile) (n : Int) (ci : Bool)
    (hN : f.resolutionLevels ≠ 0) (h0 : 0 ≤ n) :
    (n ≤ (f.resolutionLevels : Int) - 1 →
      (n + 1).toNat ≤ f.resolutionLevels ∧
      ∀ out, imsReader f (ResLevel.int n) ci = Except.ok out →
        ∀ p ∈ out, layerLevels p.1 = List.range (n + 1).toNat) ∧
    ((f.resolutionLevels : Int) < n + 1 →
      imsReader f (ResLevel.int n) ci =
        Except.error (ImsError.valueError (capMsg f.resolutionLevels))) := by
  constructor
  · intro hn
    have hle : n + 1 ≤ (f.resolutionLevels : Int) := by omega
    refine ⟨by omega, ?_⟩
    intro out hout p hp
    have hstep : finishOutput (pySliceTo (expandedData f) (n + 1)) (baseMeta f)
        (channelAxis f) ci = Except.ok out := by
      rw [← hout]
      simp only [imsReader]
      rw [if_neg hN, if_neg (by omega)]
    have hmap := capped_map_level f n h0 hle
    rcases finishOutput_ok_levels _ _ _ _ _ hstep p hp with hl | ⟨hms, a0, ha0, hl⟩
    · rw [hl, hmap]
    · have hms' : ¬((expandedData f).length > 1) := by
        have hd : decide ((expandedData f).length > 1) = false := hms
        simpa using hd
      have hN1 : f.resolutionLevels = 1 := by
        rw [expandedData_length] at hms'
        omega
      have hn0 : n = 0 := by
        rw [hN1] at hn
        omega
      subst hn0
      cases hdata : pySliceTo (expandedData f) ((0 : Int) + 1) with
      | nil =>
        rw [hdata] at ha0
        exact Option.noConfusion ha0
      | cons x xs =>
        rw [hdata] at ha0 hmap
        simp only [List.head?_cons, Option.some.injEq] at ha0
        subst ha0
        have hr1 : List.range ((0 : Int) + 1).toNat = [0] := rfl
        rw [hr1] at hmap ⊢
        simp only [List.map_cons, List.cons.injEq] at hmap
        rw [hl, hmap.1]
  · intro hn
    simp only [imsReader]
    rw [if_neg hN, if_pos (by omega)]

/-- Witness for C1: capping the two-level witness file at level 0 keeps
exactly level 0, at most its two levels. -/
theorem imsReader_resLevel_cap_witness :
    ((0 : Int) + 1).toNat ≤ fileW1.resolutionLevels ∧
    layerLevels (LayerData.multi [arrW1]) = List.range ((0 : Int) + 1).toNat := by
  have h := (imsReader_resLevel_cap fileW1 0 false (by decide) (by decide)).1
    (by decide)
  exact ⟨h.1, h.2 outW1 rfl (LayerData.multi [arrW1], metaW1) (by simp [outW1])⟩

/-- Counterexample to C8 as stated: level 10 lies outside the claimed 0-9
range, yet with a file advertising 11 resolution levels the widget accepts
it and performs the reload, appending a rebuilt layer to the viewer. -/
theorem resolution_change_range_cex :
    resultLayers (resolution_change envC8 viewerC8 10) =
      some (viewerC8.layers ++ [newLayerC8]) ∧
    viewerC8.layers ++ [newLayerC8] ≠ viewerC8.layers := by
  constructor
  · rfl
  · decide

theorem findLayer_eq_none (s : String) :
    ∀ layers : List Layer, findLayer layers s = none → ∀ l ∈ layers, l.name ≠ s := by
  intro layers
  induction layers with
  | nil =>
    intro _ l hl
    cases hl
  | cons x rest ih =>
    intro h l hl
    unfold findLayer at h
    by_cases hx : x.name = s
    · rw [if_pos hx] at h
      exact Option.noConfusion h
    · rw [if_neg hx] at h
      rcases List.mem_cons.mp hl with rfl | hmem
      · exact hx
      · exact ih h l hmem

theorem findLayer_removeLayer_ne (s s' : String) (h : s ≠ s') :
    ∀ layers : List Layer,
      findLayer (removeLayer layers s) s' = findLayer layers s' := by
  intro layers
  induction layers with
  | nil => rfl
  | cons l rest ih =>
    by_cases hl : l.name = s
    · have hne : ¬(l.name = s') := by
        rw [hl]
        exact h
      simp only [removeLayer, if_pos hl]
      show findLayer rest s' = if l.name = s' then some l else findLayer rest s'
      rw [if_neg hne]
    · simp only [removeLayer, if_neg hl]
      show (if l.name = s' then some l else findLayer (removeLayer rest s) s') =
        if l.name = s' then some l else findLayer rest s'
      rw [ih]

theorem removeLayer_sublist (s : String) :
    ∀ layers : List Layer, List.Sublist (removeLayer layers s) layers := by
  intro layers
  induction layers with
  | nil => exact List.Sublist.refl []
  | cons l rest ih =>
    by_cases hl : l.name = s
    · simp only [removeLayer, if_pos hl]
      exact List.Sublist.cons l (List.Sublist.refl rest)
    · simp only [removeLayer, if_neg hl]
      exact List.Sublist.cons₂ l ih

theorem nodup_removeLayer (s : String) (layers : List Layer)
    (h : (layers.map Layer.name).Nodup) :
    ((removeLayer layers s).map Layer.name).Nodup :=
  h.sublist ((removeLayer_sublist s layers).map Layer.name)

theorem removeLayer_eq_filter (s : String) :
    ∀ layers : List Layer, (layers.map Layer.name).Nodup →
      removeLayer layers s = layers.filter (fun l => decide (l.name ≠ s)) := by
  intro layers
  induction layers with
  | nil =>
    intro _
    rfl
  | cons x rest ih =>
    intro hnd
    simp only [List.map_cons, List.nodup_cons, List.mem_map] at hnd
    by_cases hx : x.name = s
    · simp only [removeLayer, if_pos hx, List.filter_cons]
      rw [if_neg (by simp [hx])]
      rw [List.filter_eq_self.mpr]
      intro a ha
      simp only [decide_eq_true_eq]
      intro hc
      exact hnd.1 ⟨a, ha, by rw [hc, hx]⟩
    · simp only [removeLayer, if_neg hx, List.filter_cons]
      rw [if_pos (by simp [hx]), ih hnd.2]

theorem copyLoop_cons (layers : List Layer) (d : LayerData) (m : ImsMeta)
    (rest : List (LayerData × ImsMeta)) :
    copyLoop layers ((d, m) :: rest) =
      ((copyLoop (copyStep layers m).1 rest).1,
       (d, (copyStep layers m).2) :: (copyLoop (copyStep layers m).1 rest).2) := rfl

theorem updTuple_removeLayer (layers : List Layer) (s : String)
    (rest : List (LayerData × ImsMeta)) (hs : s ∉ oneNames rest)
    (dm : LayerData × ImsMeta) (hdm : dm ∈ rest) :
    updTuple (removeLayer layers s) dm = updTuple layers dm := by
  unfold updTuple
  have hcs : copiedSettingsSpec (removeLayer layers s) dm.2.name =
      copiedSettingsSpec layers dm.2.name := by
    cases hname : dm.2.name with
    | many l => rfl
    | one s' =>
      have hmem : s' ∈ oneNames rest := by
        unfold oneNames
        refine List.mem_filterMap.mpr ⟨dm, hdm, ?_⟩
        rw [hname]
      have hne : s ≠ s' := by
        intro hc
        rw [hc] at hs
        exact hs hmem
      show (match findLayer (removeLayer layers s) s' with
            | some old => old.settings
            | none => defaultSettings) = _
      rw [findLayer_removeLayer_ne s s' hne layers]
      rfl
  rw [hcs]

/-- C5: when the widget rebuilds the layers (unique old layer names, unique
new channel names), every output tuple whose name matches a pre-existing
layer receives exactly that layer's display settings in its metadata and the
matched layer is removed; every tuple without a same-named predecessor
receives the fixed default settings; the surviving layers are exactly the
unmatched ones. -/
theorem copyLoop_settings (layers : List Layer) (ts : List (LayerData × ImsMeta))
    (hold : (layers.map Layer.name).Nodup)
    (hnew : (oneNames ts).Nodup) :
    (copyLoop layers ts).1 = layers.filter (keepPred ts) ∧
    ∀ i, (copyLoop layers ts).2.get? i = (ts.get? i).map (updTuple layers) := by
  induction ts generalizing layers with
  | nil =>
    refine ⟨?_, fun i => rfl⟩
    show layers = layers.filter (keepPred [])
    exact (List.filter_eq_self.mpr (fun a _ => by simp [keepPred, oneNames])).symm
  | cons dm rest ih =>
    obtain ⟨d, m⟩ := dm
    cases hname : m.name with
    | one s =>
      have honeNames : oneNames ((d, m) :: rest) = s :: oneNames rest := by
        simp [oneNames, hname]
      rw [honeNames] at hnew
      have hs_not : s ∉ oneNames rest := (List.nodup_cons.mp hnew).1
      have hnew' : (oneNames rest).Nodup := (List.nodup_cons.mp hnew).2
      cases hfind : findLayer layers s with
      | some old =>
        have hstep : copyStep layers m =
            (removeLayer layers s,
             { m with settings := some old.settings,
                      contrast_limits := old.settings.contrast_limits }) := by
          simp only [copyStep, hname, hfind]
        obtain ⟨ih1, ih2⟩ :=
          ih (removeLayer layers s) (nodup_removeLayer s layers hold) hnew'
        rw [copyLoop_cons, hstep]
        constructor
        · show (copyLoop (removeLayer layers s) rest).1 = _
          rw [ih1, removeLayer_eq_filter s layers hold, List.filter_filter]
          refine List.filter_congr ?_
          intro a _
          simp only [keepPred, honeNames, List.mem_cons, not_or, Bool.decide_and,
            decide_not]
          exact Bool.and_comm _ _
        · intro i
          cases i with
          | zero =>
            simp only [List.get?_cons_zero, Option.map_some']
            show some (d, _) = some (updTuple layers (d, m))
            simp [updTuple, copiedSettingsSpec, hname, hfind]
          | succ i =>
            simp only [List.get?_cons_succ]
            rw [ih2 i]
            cases hrest : rest.get? i with
            | none => rfl
            | some dm' =>
              simp only [Option.map_some']
              rw [updTuple_removeLayer layers s rest hs_not dm'
                (List.get?_mem hrest)]
      | none =>
        have hstep : copyStep layers m =
            (layers,
             { m with settings := some defaultSettings,
                      contrast_limits := defaultSettings.contrast_limits }) := by
          simp only [copyStep, hname, hfind]
        obtain ⟨ih1, ih2⟩ := ih layers hold hnew'
        rw [copyLoop_cons, hstep]
        constructor
        · show (copyLoop layers rest).1 = _
          rw [ih1]
          refine List.filter_congr ?_
          intro a ha
          have hna : a.name ≠ s := findLayer_eq_none s layers hfind a ha
          simp only [keepPred, honeNames, List.mem_cons, not_or,
            decide_eq_decide]
          simp [hna]
        · intro i
          cases i with
          | zero =>
            simp only [List.get?_cons_zero, Option.map_some']
            show some (d, _) = some (updTuple layers (d, m))
            simp [updTuple, copiedSettingsSpec, hname, hfind]
          | succ i =>
            simp only [List.get?_cons_succ]
            exact ih2 i
    | many l =>
      have honeNames : oneNames ((d, m) :: rest) = oneNames rest := by
        simp [oneNames, hname]
      rw [honeNames] at hnew
      have hstep : copyStep layers m =
          (layers,
           { m with settings := some defaultSettings,
                    contrast_limits := defaultSettings.contrast_limits }) := by
        simp only [copyStep, hname]
      obtain ⟨ih1, ih2⟩ := ih layers hold hnew
      rw [copyLoop_cons, hstep]
      constructor
      · show (copyLoop layers rest).1 = _
        rw [ih1]
        refine List.filter_congr ?_
        intro a _
        simp only [keepPred, honeNames]
      · intro i
        cases i with
        | zero =>
          simp only [List.get?_cons_zero, Option.map_some']
          show some (d, _) = some (updTuple layers (d, m))
          simp [updTuple, copiedSettingsSpec, hname]
        | succ i =>
          simp only [List.get?_cons_succ]
          exact ih2 i

/-- Witness for C5: a matched old layer donates its settings and is removed
from the layer list. -/
theorem copyLoop_settings_witness :
    (copyLoop layersW5 tsW5).1 = layersW5.filter (keepPred tsW5) ∧
    (copyLoop layersW5 tsW5).2.get? 0 = (tsW5.get? 0).map (updTuple layersW5) := by
  have h := copyLoop_settings layersW5 tsW5 (by decide) (by decide)
  exact ⟨h.1, h.2 0⟩

end NapariIms
